import Mathlib

/-
  Verification of the Egret DCOPF-losses core against its specification.

  Shallow embedding of:
    - src/egret/model_library/unit_commitment/uc_utils.py  (add_model_attr)
    - src/egret/data/data_utils.py                          (create_dicts_of_ptdf, create_dicts_of_ptdf_losses)
    - src/egret/common/solver_interface.py                  (_solve_model)
    - src/egret/models/dcopf_losses.py                      (model builders, solve_dcopf_losses result extraction)

  Python dictionaries are modelled as insertion-ordered association lists
  (assignment replaces in place or appends; pop removes the entry), numeric
  values as rationals.
-/

namespace Egret

/-- Python dict lookup on an association list: first binding wins. -/
def assocFind {α : Type} (m : List (String × α)) (k : String) : Option α :=
  match m with
  | [] => none
  | (k', v) :: rest => if k' = k then some v else assocFind rest k

/-- Python dict assignment `d[k] = v`: replace the existing binding in place,
else append a new binding at the end. -/
def assocSet {α : Type} (m : List (String × α)) (k : String) (v : α) : List (String × α) :=
  match m with
  | [] => [(k, v)]
  | (k', v') :: rest => if k' = k then (k', v) :: rest else (k', v') :: assocSet rest k v

/-- Python `d.pop(k, None)`: remove the binding for `k` when present. -/
def assocPop {α : Type} (m : List (String × α)) (k : String) : List (String × α) :=
  match m with
  | [] => []
  | (k', v') :: rest => if k' = k then rest else (k', v') :: assocPop rest k

/-! ### uc_utils.add_model_attr (src/egret/model_library/unit_commitment/uc_utils.py, lines 19-49) -/

/-- A pyomo model as seen by `add_model_attr`: a bag of string-valued
attributes (the wrapper only ever stores `func.__name__` strings). -/
structure PyModel where
  attrs : List (String × String)
  deriving DecidableEq, Repr

/-- Python `getattr(model, a)` restricted to the attributes the wrapper uses. -/
def PyModel.getattr (m : PyModel) (a : String) : Option String :=
  assocFind m.attrs a

/-- Python `setattr(model, a, v)`. -/
def PyModel.setattr (m : PyModel) (a v : String) : PyModel :=
  ⟨assocSet m.attrs a v⟩

/-- The `for base_attr in requires` loop of `add_model_attr`'s wrapper
(uc_utils.py lines 30-43): missing required attribute, or a required
attribute whose value is not in the given list, raises. -/
def checkRequires (model : PyModel) (funcName : String) :
    List (String × Option (List String)) → Except String Unit
  | [] => Except.ok ()
  | (base, req) :: rest =>
    match model.getattr base with
    | none =>
        Except.error ("Exception adding " ++ funcName ++ "! " ++ funcName ++
          " requires some " ++ base ++ " to be added first!")
    | some v =>
        match req with
        | none => checkRequires model funcName rest
        | some allowed =>
            if v ∈ allowed then
              checkRequires model funcName rest
            else
              Except.error ("Exception adding " ++ funcName ++ "! " ++ funcName ++
                " requires one of: " ++ String.intercalate ", " allowed ++
                ", to be added first.")

/-- The wrapper produced by `add_model_attr(attr, requires)` around a function
named `funcName` (uc_utils.py lines 22-45): raise when the model already has
`attr`; run the `requires` checks; otherwise tag the model with
`attr = funcName` and delegate to the wrapped function. -/
def add_model_attr_wrapper {α : Type} (attr funcName : String)
    (requires : List (String × Option (List String)))
    (func : PyModel → α) (model : PyModel) : Except String α :=
  match model.getattr attr with
  | some v =>
      Except.error ("Exception adding " ++ funcName ++ "! Model already has " ++ attr ++
        " " ++ v ++ "! You may only add one type of " ++ attr ++ "!")
  | none =>
      match checkRequires model funcName requires with
      | Except.error e => Except.error e
      | Except.ok _ => Except.ok (func (model.setattr attr funcName))

/-- One entry of `requires` fails on `model`: the required attribute is absent,
or a list of allowed values is given and the attribute's value is not in it. -/
def reqFails (model : PyModel) (p : String × Option (List String)) : Prop :=
  model.getattr p.1 = none ∨
    ∃ allowed v, p.2 = some allowed ∧ model.getattr p.1 = some v ∧ v ∉ allowed

/-- The failure condition claimed for the wrapper: the model already has the
attribute being added, or some `requires` entry fails. -/
def attrFailure (attr : String) (requires : List (String × Option (List String)))
    (model : PyModel) : Prop :=
  (model.getattr attr).isSome = true ∨ ∃ p ∈ requires, reqFails model p

/-! ### data_utils.create_dicts_of_ptdf / create_dicts_of_ptdf_losses
    (src/egret/data/data_utils.py, lines 18-88) -/

/-- Sensitivity block stored on a branch by `create_dicts_of_ptdf_losses`:
dense rows keyed by bus name (data_utils.py lines 65-73, no zero filter). -/
structure BranchSens where
  ptdf_r : List (String × ℚ)
  ldf : List (String × ℚ)
  ldf_c : ℚ
  deriving DecidableEq, Repr

/-- Sensitivity block stored on a bus by `create_dicts_of_ptdf_losses`:
phi rows keyed by branch name, zero entries filtered out
(data_utils.py lines 75-87). -/
structure BusSens where
  phi_from : List (String × ℚ)
  phi_to : List (String × ℚ)
  phi_loss_from : List (String × ℚ)
  phi_loss_to : List (String × ℚ)
  deriving DecidableEq, Repr

/-- Dense row comprehension
`{names[i]: row[i] for i in range(len)}` (data_utils.py lines 36, 67, 70). -/
def denseRow (names : List String) (row : Nat → ℚ) : List (String × ℚ) :=
  (List.range names.length).map (fun i => (names.getD i "", row i))

/-- Sparse row comprehension
`{names[i]: row[i] for i in range(len) if row[i] != 0.}`
(data_utils.py lines 41, 44, 77, 80, 83, 86). -/
def sparseRow (names : List String) (row : Nat → ℚ) : List (String × ℚ) :=
  ((List.range names.length).filter (fun i => decide (row i ≠ 0))).map
    (fun i => (names.getD i "", row i))

/-- Embedding of `create_dicts_of_ptdf_losses` (data_utils.py lines 48-88).
The sensitivity matrices produced by the external `tx_calc` calls are taken
as inputs (`ptdfM ldfM : branch index → bus index → value`,
`phiFrom phiTo phiLossFrom phiLossTo : bus index → branch index → value`);
the function returns what is stored on each branch and bus of the snapshot. -/
def create_dicts_of_ptdf_losses
    (branch_names bus_names : List String)
    (ptdfM ldfM : Nat → Nat → ℚ) (ldfC : Nat → ℚ)
    (phiFrom phiTo phiLossFrom phiLossTo : Nat → Nat → ℚ) :
    List (String × BranchSens) × List (String × BusSens) :=
  ( (List.range branch_names.length).map (fun j =>
      (branch_names.getD j "",
        { ptdf_r := denseRow bus_names (fun i => ptdfM j i)
        , ldf := denseRow bus_names (fun i => ldfM j i)
        , ldf_c := ldfC j }))
  , (List.range bus_names.length).map (fun j =>
      (bus_names.getD j "",
        { phi_from := sparseRow branch_names (fun i => phiFrom j i)
        , phi_to := sparseRow branch_names (fun i => phiTo j i)
        , phi_loss_from := sparseRow branch_names (fun i => phiLossFrom j i)
        , phi_loss_to := sparseRow branch_names (fun i => phiLossTo j i) })) )

/-- Sensitivity block stored on a branch by `create_dicts_of_ptdf`:
a single dense PTDF row (data_utils.py lines 34-37). -/
structure BranchSensPtdf where
  ptdf : List (String × ℚ)
  deriving DecidableEq, Repr

/-- Sensitivity block stored on a bus by `create_dicts_of_ptdf`:
phi rows with zero entries filtered out (data_utils.py lines 39-45). -/
structure BusSensPtdf where
  phi_from : List (String × ℚ)
  phi_to : List (String × ℚ)
  deriving DecidableEq, Repr

/-- Embedding of `create_dicts_of_ptdf` (data_utils.py lines 18-45), with the
externally computed matrices as inputs. -/
def create_dicts_of_ptdf
    (branch_names bus_names : List String)
    (ptdfM : Nat → Nat → ℚ)
    (phiFrom phiTo : Nat → Nat → ℚ) :
    List (String × BranchSensPtdf) × List (String × BusSensPtdf) :=
  ( (List.range branch_names.length).map (fun j =>
      (branch_names.getD j "", { ptdf := denseRow bus_names (fun i => ptdfM j i) }))
  , (List.range bus_names.length).map (fun j =>
      (bus_names.getD j "",
        { phi_from := sparseRow branch_names (fun i => phiFrom j i)
        , phi_to := sparseRow branch_names (fun i => phiTo j i) })) )

/-! ### solver_interface._solve_model (src/egret/common/solver_interface.py, lines 70-138) -/

/-- Pyomo termination conditions relevant to `_solve_model`: the ten listed in
`safe_termination_conditions` (solver_interface.py lines 106-117) plus
representative unaccepted ones. -/
inductive TermCond where
  | maxTimeLimit | maxIterations | minFunctionValue | minStepLength
  | globallyOptimal | locallyOptimal | feasible | optimal
  | maxEvaluations | other
  | infeasible | unbounded | invalidProblem | solverFailure
  | internalSolverError | error | userInterrupt | resourceInterrupt
  | licensingProblems | noSolution | unknown
  deriving DecidableEq, Repr

/-- The `safe_termination_conditions` list, in source order
(solver_interface.py lines 106-117). -/
def safe_termination_conditions : List TermCond :=
  [ TermCond.maxTimeLimit
  , TermCond.maxIterations
  , TermCond.minFunctionValue
  , TermCond.minStepLength
  , TermCond.globallyOptimal
  , TermCond.locallyOptimal
  , TermCond.feasible
  , TermCond.optimal
  , TermCond.maxEvaluations
  , TermCond.other ]

/-- A Python runtime error as raised by `_solve_model`'s body: an unresolved
module-level name, a missing attribute, or an explicit `raise Exception(msg)`. -/
inductive PyError where
  | nameError (n : String)
  | attributeError (n : String)
  | exception (msg : String)
  deriving DecidableEq, Repr

/-- An instantiated pyomo solver object (only its name is ever inspected
by the code under src/). -/
structure OptSolver where
  name : String
  deriving DecidableEq, Repr

/-- The `solver` argument of `_solve_model`: a string or an instantiated
pyomo solver object. -/
inductive SolverArg where
  | str (s : String)
  | obj (o : OptSolver)
  deriving DecidableEq, Repr

/-- Names bound at module level in solver_interface.py: the two from-imports
(lines 13-14) and the two function definitions. A Python from-import of the
form from pyomo.opt bring the imported names into scope only, never the
name `pyomo` itself. -/
def moduleNames : List String :=
  ["SolverFactory", "TerminationCondition", "PersistentSolver",
   "_set_options", "_solve_model"]

/-- Evaluating a bare name inside solver_interface.py: unbound names raise
`NameError`. -/
def evalName (n : String) : Except PyError Unit :=
  if n ∈ moduleNames then Except.ok () else Except.error (PyError.nameError n)

/-- Attribute lookup on the `results.solver` record: the record carries
`termination_condition` (set by the solve call); any other attribute name
raises `AttributeError`. -/
def resultsSolverAttr (tc : TermCond) (n : String) : Except PyError TermCond :=
  if n = "termination_condition" then Except.ok tc
  else Except.error (PyError.attributeError n)

/-- Printable form of a termination condition, for the exception message. -/
def TermCond.str : TermCond → String
  | .maxTimeLimit => "maxTimeLimit"
  | .maxIterations => "maxIterations"
  | .minFunctionValue => "minFunctionValue"
  | .minStepLength => "minStepLength"
  | .globallyOptimal => "globallyOptimal"
  | .locallyOptimal => "locallyOptimal"
  | .feasible => "feasible"
  | .optimal => "optimal"
  | .maxEvaluations => "maxEvaluations"
  | .other => "other"
  | .infeasible => "infeasible"
  | .unbounded => "unbounded"
  | .invalidProblem => "invalidProblem"
  | .solverFailure => "solverFailure"
  | .internalSolverError => "internalSolverError"
  | .error => "error"
  | .userInterrupt => "userInterrupt"
  | .resourceInterrupt => "resourceInterrupt"
  | .licensingProblems => "licensingProblems"
  | .noSolution => "noSolution"
  | .unknown => "unknown"

/-- Embedding of `_solve_model` (solver_interface.py lines 70-138) from the
solver-argument dispatch onward. `tc` is the termination condition the
external solver reports for this call. The first component of the result
records the externally visible solve events ("solve" when the blocking solve
call is issued); the second is the normal return (the reported condition,
standing for `model, results`) or the raised error.

Line-by-line: `if isinstance(solver, str)` takes the string branch to
`SolverFactory`; otherwise the `elif isinstance(solver,
pyomo.opt.base.OptSolver)` test first evaluates the name `pyomo`, which is
unbound in the module (only `from pyomo.opt import ...` appears), so it
raises `NameError` before any solve. After the solve, the accepted-status
check reads `results.solver.termination_condition`; on a rejected status the
exception message reads `results.solver.terminataion_condition` (sic, line
136), whose lookup raises `AttributeError` before the `Exception` is built. -/
def solve_model (solver : SolverArg) (tc : TermCond) :
    List String × Except PyError TermCond :=
  match solver with
  | SolverArg.str _ =>
      -- solver = SolverFactory(solver); _set_options(...); results = solver.solve(...)
      let afterCheck : Except PyError TermCond := do
        let cond ← resultsSolverAttr tc "termination_condition"
        if cond ∈ safe_termination_conditions then
          pure cond
        else do
          let msgArg ← resultsSolverAttr tc "terminataion_condition"
          Except.error (PyError.exception
            ("Problem encountered during solve, termination_condition " ++ msgArg.str))
      (["solve"], afterCheck)
  | SolverArg.obj _ =>
      -- elif isinstance(solver, pyomo.opt.base.OptSolver): `pyomo` is unbound
      match evalName "pyomo" with
      | Except.error e => ([], Except.error e)
      | Except.ok _ =>
          -- unreachable: the name `pyomo` is never bound in the module
          ([], Except.error (PyError.nameError "pyomo"))

/-- The accepted-status set as the claim states it: optimal, locally-optimal,
globally-optimal, feasible, max-time, max-iterations, max-evaluations,
other-acceptable. -/
def claimedAcceptedConditions : List TermCond :=
  [ TermCond.optimal, TermCond.locallyOptimal, TermCond.globallyOptimal
  , TermCond.feasible, TermCond.maxTimeLimit, TermCond.maxIterations
  , TermCond.maxEvaluations, TermCond.other ]

/-! ### dcopf_losses.solve_dcopf_losses result extraction
    (src/egret/models/dcopf_losses.py, lines 365-390) -/

/-- A value stored in an element dictionary of the snapshot: a number, or a
nested map keyed by element name (such as a branch's `ptdf_r` row). -/
inductive DVal where
  | num (q : ℚ)
  | map (m : List (String × ℚ))
  deriving DecidableEq, Repr

/-- An element dictionary (one bus, branch, or generator). -/
abbrev PyDict := List (String × DVal)

/-- Numeric lookup `d[k]` on an element dictionary. -/
def dictGetNum (d : PyDict) (k : String) : Option ℚ :=
  match assocFind d k with
  | some (DVal.num q) => some q
  | _ => none

/-- Nested-map lookup `d[k]` on an element dictionary. -/
def dictGetMap (d : PyDict) (k : String) : Option (List (String × ℚ)) :=
  match assocFind d k with
  | some (DVal.map m) => some m
  | _ => none

/-- Numeric assignment `d[k] = q`. -/
def dictSetNum (d : PyDict) (k : String) (q : ℚ) : PyDict :=
  assocSet d k (DVal.num q)

/-- The slice of a ModelData snapshot that `solve_dcopf_losses` writes
results into: the system dictionary and the generator, bus, and branch
element dictionaries. -/
structure ModelData where
  system : List (String × ℚ)
  gens : List (String × PyDict)
  buses : List (String × PyDict)
  branches : List (String × PyDict)
  deriving DecidableEq, Repr

/-- Which model-generator function was passed to `solve_dcopf_losses`
(its two `if dcopf_losses_model_generator == ...` tests compare against
`create_btheta_losses_dcopf_model` and `create_ptdf_losses_dcopf_model`). -/
inductive ModelGen where
  | btheta | ptdf | otherGen
  deriving DecidableEq, Repr

/-- The primal and dual values read off the solved pyomo model by
`solve_dcopf_losses`: objective value, per-generator `pg`, per-bus `pl` and
`va`, per-branch `pf`, the per-bus balance duals (angle-based model), the
single system balance dual (PTDF model), and the per-branch flow- and
loss-equality duals. -/
structure SolvedVals where
  obj : ℚ
  pg : String → ℚ
  pl : String → ℚ
  va : String → ℚ
  pf : String → ℚ
  dualBalanceBus : String → ℚ
  dualBalanceSys : ℚ
  dualPfBranch : String → ℚ
  dualPflBranch : String → ℚ

/-- A Python for-loop threading a dictionary state, where each iteration may
raise (KeyError modelled as `none`). -/
def foldOption {β γ : Type} (f : β → γ → Option β) : β → List γ → Option β
  | b, [] => some b
  | b, c :: rest => do
    let b' ← f b c
    foldOption f b' rest

/-- A Python for-loop over elements, where each iteration may raise. -/
def mapOption {α β : Type} (f : α → Option β) : List α → Option (List β)
  | [] => some []
  | x :: xs => do
    let y ← f x
    let ys ← mapOption f xs
    pure (y :: ys)

/-- One iteration of the PTDF marginal-price accumulation
(dcopf_losses.py lines 383-385) for bus `b` and branch `kp`:
`b_dict['lmp'] += k_dict['ptdf_r'][b]*value(m.dual[m.eq_pf_branch[k]])` then
`b_dict['lmp'] += k_dict['ldf'][b]*value(m.dual[m.eq_pfl_branch[k]])`.
A missing `ptdf_r`/`ldf` entry is a Python `KeyError` (`none`). -/
def lmpStep (v : SolvedVals) (b : String) (bd : PyDict)
    (kp : String × PyDict) : Option PyDict := do
  let pt ← (dictGetMap kp.2 "ptdf_r").bind (fun m => assocFind m b)
  let cur ← dictGetNum bd "lmp"
  let bd := dictSetNum bd "lmp" (cur + pt * v.dualPfBranch kp.1)
  let ld ← (dictGetMap kp.2 "ldf").bind (fun m => assocFind m b)
  let cur' ← dictGetNum bd "lmp"
  pure (dictSetNum bd "lmp" (cur' + ld * v.dualPflBranch kp.1))

/-- The body of the bus loop of `solve_dcopf_losses` (dcopf_losses.py lines
375-385) for one bus `p = (b, b_dict)`: set `pl`, pop `qlmp`, then, per
generator choice, write `lmp` (and `va` for the angle-based model); the PTDF
path initializes `lmp` with the system balance dual and accumulates the
branch dual terms with `lmpStep`. -/
def saveBus (gen : ModelGen) (branches : List (String × PyDict)) (v : SolvedVals)
    (p : String × PyDict) : Option (String × PyDict) := do
  let b := p.1
  let bd := dictSetNum p.2 "pl" (v.pl b)
  let bd := assocPop bd "qlmp"
  match gen with
  | ModelGen.btheta =>
      let bd := dictSetNum bd "lmp" (v.dualBalanceBus b)
      let bd := dictSetNum bd "va" (v.va b)
      pure (b, bd)
  | ModelGen.ptdf =>
      let bd := dictSetNum bd "lmp" v.dualBalanceSys
      let bd ← foldOption (lmpStep v b) bd branches
      pure (b, bd)
  | ModelGen.otherGen => pure (b, bd)

/-- The result-saving section of `solve_dcopf_losses` (dcopf_losses.py lines
365-388): write `total_cost` on the system dictionary, `pg` on every
generator, run the bus loop (`saveBus`), and write `pf` on every branch.
The subsequent `unscale_ModelData_to_pu` call lives outside src/ and is not
part of this extraction step. -/
def saveResults (md : ModelData) (v : SolvedVals) (gen : ModelGen) :
    Option ModelData := do
  let sys := assocSet md.system "total_cost" v.obj
  let gens := md.gens.map (fun gp => (gp.1, dictSetNum gp.2 "pg" (v.pg gp.1)))
  let buses ← mapOption (saveBus gen md.branches v) md.buses
  let branches := md.branches.map (fun kp => (kp.1, dictSetNum kp.2 "pf" (v.pf kp.1)))
  pure { system := sys, gens := gens, buses := buses, branches := branches }

/-! ### dcopf_losses.create_btheta_losses_dcopf_model, voltage-angle
    declaration (src/egret/models/dcopf_losses.py lines 66-69 and 82-85,
    through decl.declare_var of src/egret/model_library/decl.py) -/

/-- A declared indexed pyomo variable as produced by `decl.declare_var` with
a bounds dictionary: the index set, and the bounds rule
`lambda m, k: (d[k][0], d[k][1])` (decl.py lines 18-21), which looks the
index up in the dictionary (a missing index is a Python KeyError, `none`).
The scalar type `K` stands for the numeric values (the real numbers, with
`piV` standing for `math.pi`, instantiated as `Real.pi` in the theorems). -/
structure DeclaredVar (K : Type) where
  index : List String
  bounds : String → Option (K × K)

/-- Embedding of `decl.declare_var` (decl.py lines 15-31) for a non-`none`
index set and a bounds dictionary. -/
def declare_var {K : Type} (index_set : List String)
    (boundsDict : List (String × (K × K))) : DeclaredVar K :=
  { index := index_set, bounds := fun k => assocFind boundsDict k }

/-- Python `math.radians`: degrees to radians. -/
def radians {K : Type} [Field K] (piV : K) (x : ℚ) : K := (x : K) * piV / 180

/-- The voltage-angle part of the angle-based model: the declared `va`
variable and the fixed values applied to it. -/
structure VaDeclaration (K : Type) where
  va : DeclaredVar K
  vaFixed : List (String × K)

/-- Embedding of the `va` declarations of `create_btheta_losses_dcopf_model`
(dcopf_losses.py lines 66-69 and 82-85):
`va_bounds = \x7bk: (-pi, pi) for k in bus_attrs['va']\x7d`, then
`declare_var_va(model, bus_attrs['names'], ..., bounds=va_bounds)`, then
`model.va[ref_bus].fix(radians(ref_angle))` where `ref_angle` is
`md.data['system']['reference_bus_angle']`. -/
def btheta_va_declaration {K : Type} [Field K] (piV : K) (bus_names : List String)
    (bus_va : List (String × ℚ)) (ref_bus : String) (ref_angle : ℚ) :
    VaDeclaration K :=
  let va_bounds : List (String × (K × K)) :=
    bus_va.map (fun kv => (kv.1, (-piV, piV)))
  { va := declare_var bus_names va_bounds
  , vaFixed := [(ref_bus, radians piV ref_angle)] }

/-! ### Frame behaviour of the two model builders
    (src/egret/models/dcopf_losses.py lines 34-36 and 186-190) -/

/-- A store of ModelData objects, indexed by reference. -/
structure Heap (α : Type) where
  cells : List α
  deriving Repr

/-- Dereference. -/
def Heap.read {α : Type} (h : Heap α) (r : Nat) : Option α :=
  h.cells.get? r

/-- In-place update of the object behind a reference. -/
def Heap.write {α : Type} (h : Heap α) (r : Nat) (v : α) : Heap α :=
  ⟨h.cells.set r v⟩

/-- Allocate a fresh object, returning its reference. -/
def Heap.alloc {α : Type} (h : Heap α) (v : α) : Heap α × Nat :=
  (⟨h.cells ++ [v]⟩, h.cells.length)

/-- Aliasing structure of `create_btheta_losses_dcopf_model` (dcopf_losses.py
lines 34-183): `md = model_data.clone_in_service()` allocates a fresh object
from the caller's, `scale_ModelData_to_pu(md, inplace=True)` updates the
clone in place, and every further read is from the clone, which is returned
with the built model. `clone_in_service`, `scale_to_pu` and the pure model
formulation `formulate` live outside src/ (model_data.py, tx_utils.py, the
model_library builders) and are taken as opaque value-level functions. -/
def create_btheta_losses_dcopf_model_frame {α β : Type}
    (clone_in_service : α → α) (scale_to_pu : α → α) (formulate : α → β)
    (h : Heap α) (mdRef : Nat) : Option (Heap α × β × Nat) := do
  let md0 ← h.read mdRef
  let (h1, r) := h.alloc (clone_in_service md0)
  let cur ← h1.read r
  let h2 := h1.write r (scale_to_pu cur)
  let md ← h2.read r
  pure (h2, formulate md, r)

/-- Aliasing structure of `create_ptdf_losses_dcopf_model` (dcopf_losses.py
lines 186-311): as for the angle-based builder, with the additional in-place
`data_utils.create_dicts_of_ptdf_losses(md)` sensitivity-dictionary
attachment on the clone (line 190). -/
def create_ptdf_losses_dcopf_model_frame {α β : Type}
    (clone_in_service : α → α) (scale_to_pu : α → α) (attach_dicts : α → α)
    (formulate : α → β)
    (h : Heap α) (mdRef : Nat) : Option (Heap α × β × Nat) := do
  let md0 ← h.read mdRef
  let (h1, r) := h.alloc (clone_in_service md0)
  let cur ← h1.read r
  let h2 := h1.write r (scale_to_pu cur)
  let cur2 ← h2.read r
  let h3 := h2.write r (attach_dicts cur2)
  let md ← h3.read r
  pure (h3, formulate md, r)

/-! ### Concrete snapshots and solved values used by the evaluation theorems -/

/-- Concrete solved primal and dual values. -/
def vW : SolvedVals :=
  { obj := 7, pg := fun _ => 2, pl := fun _ => 3, va := fun _ => 0, pf := fun _ => 5
  , dualBalanceBus := fun _ => 11, dualBalanceSys := 13
  , dualPfBranch := fun _ => 17, dualPflBranch := fun _ => 19 }

/-- One-bus one-branch snapshot with PTDF and LDF rows attached. -/
def mdPtdfW : ModelData :=
  { system := [], gens := [("g1", [])]
  , buses := [("u1", [])]
  , branches := [("k1", [("ptdf_r", DVal.map [("u1", 3)]),
                         ("ldf", DVal.map [("u1", 2)])])] }

/-- One-bus snapshot with a stale `qlmp` entry on the bus. -/
def mdQlmpW : ModelData :=
  { system := [], gens := [], buses := [("u1", [("qlmp", DVal.num 5)])], branches := [] }

/-- Snapshot whose single branch carries no result fields. -/
def mdNoPflW : ModelData :=
  { system := [], gens := [], buses := [], branches := [("k1", [])] }

/-- Snapshot whose single branch carries a stale `pfl` value. -/
def mdFieldsW : ModelData :=
  { system := [("baseMVA", 100)], gens := [("g1", [])], buses := [("u1", [])]
  , branches := [("k1", [("pfl", DVal.num 9)])] }

/-! ## Shared lemmas about the dictionary model -/

theorem assocFind_assocSet_self {α : Type} (m : List (String × α)) (k : String) (v : α) :
    assocFind (assocSet m k v) k = some v := by
  induction m with
  | nil => simp [assocSet, assocFind]
  | cons p rest ih =>
    by_cases h : p.1 = k
    · simp [assocSet, assocFind, h]
    · simp [assocSet, assocFind, h, ih]

theorem assocFind_assocSet_ne {α : Type} (m : List (String × α)) (k k' : String) (v : α)
    (h : k ≠ k') : assocFind (assocSet m k v) k' = assocFind m k' := by
  have hk : ¬ (k' = k) := fun he => h he.symm
  induction m with
  | nil => simp [assocSet, assocFind, hk, h]
  | cons p rest ih =>
    by_cases hp : p.1 = k
    · have hp' : ¬ p.1 = k' := by rw [hp]; exact h
      simp [assocSet, assocFind, hp, hp', h]
    · simp [assocSet, assocFind, hp, ih]

theorem assocFind_eq_none_of_not_mem {α : Type} (m : List (String × α)) (k : String)
    (h : k ∉ m.map Prod.fst) : assocFind m k = none := by
  induction m with
  | nil => simp [assocFind]
  | cons p rest ih =>
    simp only [List.map_cons, List.mem_cons] at h
    push_neg at h
    have hp : ¬ p.1 = k := fun he => h.1 he.symm
    simp [assocFind, hp, ih h.2]

theorem mem_keys_assocSet {α : Type} (m : List (String × α)) (k a : String) (v : α) :
    a ∈ (assocSet m k v).map Prod.fst → a ∈ m.map Prod.fst ∨ a = k := by
  induction m with
  | nil => simp [assocSet]
  | cons p rest ih =>
    by_cases hp : p.1 = k
    · simp [assocSet, hp]
      tauto
    · simp only [assocSet, hp, if_false, List.map_cons, List.mem_cons]
      rintro (ha | ha)
      · tauto
      · rcases ih ha with h' | h' <;> tauto

theorem keys_nodup_assocSet {α : Type} (m : List (String × α)) (k : String) (v : α)
    (h : (m.map Prod.fst).Nodup) : ((assocSet m k v).map Prod.fst).Nodup := by
  induction m with
  | nil => simp [assocSet]
  | cons p rest ih =>
    simp only [List.map_cons, List.nodup_cons] at h
    by_cases hp : p.1 = k
    · simp only [assocSet, if_pos hp, List.map_cons, List.nodup_cons]
      exact h
    · simp only [assocSet, if_neg hp, List.map_cons, List.nodup_cons]
      refine ⟨fun hc => ?_, ih h.2⟩
      rcases mem_keys_assocSet rest k p.1 v hc with h' | h'
      · exact h.1 h'
      · exact hp h'

theorem assocFind_assocPop_self {α : Type} (m : List (String × α)) (k : String)
    (h : (m.map Prod.fst).Nodup) : assocFind (assocPop m k) k = none := by
  induction m with
  | nil => simp [assocPop, assocFind]
  | cons p rest ih =>
    simp only [List.map_cons, List.nodup_cons] at h
    by_cases hp : p.1 = k
    · simp only [assocPop, hp, if_true]
      apply assocFind_eq_none_of_not_mem
      rw [← hp]
      exact h.1
    · simp [assocPop, assocFind, hp, ih h.2]

theorem assocFind_assocPop_ne {α : Type} (m : List (String × α)) (k k' : String)
    (h : k ≠ k') : assocFind (assocPop m k) k' = assocFind m k' := by
  induction m with
  | nil => rfl
  | cons p rest ih =>
    obtain ⟨k1, v1⟩ := p
    by_cases hp : k1 = k
    · subst hp
      simp [assocPop, assocFind, h]
    · simp [assocPop, assocFind, hp, ih]

theorem dictGetNum_dictSetNum_self (d : PyDict) (k : String) (q : ℚ) :
    dictGetNum (dictSetNum d k q) k = some q := by
  simp [dictGetNum, dictSetNum, assocFind_assocSet_self]

theorem dictGetNum_dictSetNum_ne (d : PyDict) (k k' : String) (q : ℚ) (h : k ≠ k') :
    dictGetNum (dictSetNum d k q) k' = dictGetNum d k' := by
  simp [dictGetNum, dictSetNum, assocFind_assocSet_ne _ _ _ _ h]

theorem foldOption_invariant {β γ : Type} (P : β → Prop) (f : β → γ → Option β)
    (l : List γ) (b : β) (hb : P b)
    (hstep : ∀ b' c, c ∈ l → P b' → ∀ b'', f b' c = some b'' → P b'') :
    ∀ b'', foldOption f b l = some b'' → P b'' := by
  induction l generalizing b with
  | nil =>
    intro b'' h
    simp only [foldOption] at h
    cases h
    exact hb
  | cons c rest ih =>
    intro b'' h
    simp only [foldOption, Option.bind_eq_bind, Option.bind_eq_some] at h
    obtain ⟨b1, hb1, hrest⟩ := h
    exact ih b1 (hstep b c (List.mem_cons_self c rest) hb b1 hb1)
      (fun b' c' hc' => hstep b' c' (List.mem_cons_of_mem c hc')) b'' hrest

theorem mapOption_mem {α β : Type} (f : α → Option β) (l : List α) (l' : List β)
    (h : mapOption f l = some l') : ∀ x ∈ l, ∃ y, f x = some y ∧ y ∈ l' := by
  induction l generalizing l' with
  | nil => intro x hx; cases hx
  | cons a rest ih =>
    simp only [mapOption, Option.bind_eq_bind, Option.bind_eq_some] at h
    obtain ⟨y, hy, l1, hl1, hcons⟩ := h
    cases hcons
    intro x hx
    rcases List.mem_cons.mp hx with hx | hx
    · subst hx
      exact ⟨y, hy, List.mem_cons_self y l1⟩
    · obtain ⟨y', hy', hmem⟩ := ih l1 hl1 x hx
      exact ⟨y', hy', List.mem_cons_of_mem y hmem⟩

theorem mapOption_mem_rev {α β : Type} (f : α → Option β) (l : List α) (l' : List β)
    (h : mapOption f l = some l') : ∀ y ∈ l', ∃ x ∈ l, f x = some y := by
  induction l generalizing l' with
  | nil =>
    simp only [mapOption] at h
    cases h
    intro y hy
    cases hy
  | cons a rest ih =>
    simp only [mapOption, Option.bind_eq_bind, Option.bind_eq_some] at h
    obtain ⟨y, hy, l1, hl1, hcons⟩ := h
    cases hcons
    intro z hz
    rcases List.mem_cons.mp hz with hz | hz
    · subst hz
      exact ⟨a, List.mem_cons_self a rest, hy⟩
    · obtain ⟨x, hx, hfx⟩ := ih l1 hl1 z hz
      exact ⟨x, List.mem_cons_of_mem a hx, hfx⟩

/-! ## C10: add_model_attr wrapper contract -/

theorem checkRequires_error_iff (model : PyModel) (funcName : String)
    (requires : List (String × Option (List String))) :
    (∃ e, checkRequires model funcName requires = Except.error e) ↔
      ∃ p ∈ requires, reqFails model p := by
  induction requires with
  | nil => simp [checkRequires]
  | cons p rest ih =>
    obtain ⟨base, req⟩ := p
    cases hga : model.getattr base with
    | none =>
      simp only [checkRequires, hga]
      constructor
      · intro _
        exact ⟨(base, req), List.mem_cons_self _ _, Or.inl hga⟩
      · intro _
        exact ⟨_, rfl⟩
    | some v =>
      cases req with
      | none =>
        simp only [checkRequires, hga]
        rw [ih]
        constructor
        · rintro ⟨p, hp, hf⟩
          exact ⟨p, List.mem_cons_of_mem _ hp, hf⟩
        · rintro ⟨p, hp, hf⟩
          rcases List.mem_cons.mp hp with rfl | hp
          · rcases hf with hf | ⟨allowed, v', hall, _⟩
            · rw [hga] at hf; cases hf
            · cases hall
          · exact ⟨p, hp, hf⟩
      | some allowed =>
        by_cases hv : v ∈ allowed
        · simp only [checkRequires, hga, if_pos hv]
          rw [ih]
          constructor
          · rintro ⟨p, hp, hf⟩
            exact ⟨p, List.mem_cons_of_mem _ hp, hf⟩
          · rintro ⟨p, hp, hf⟩
            rcases List.mem_cons.mp hp with rfl | hp
            · rcases hf with hf | ⟨allowed', v', hall, hga', hout⟩
              · rw [hga] at hf; cases hf
              · cases hall
                rw [hga] at hga'
                cases hga'
                exact absurd hv hout
            · exact ⟨p, hp, hf⟩
        · simp only [checkRequires, hga, if_neg hv]
          constructor
          · intro _
            exact ⟨(base, some allowed), List.mem_cons_self _ _,
              Or.inr ⟨allowed, v, rfl, hga, hv⟩⟩
          · intro _
            exact ⟨_, rfl⟩

/-- C10: calling the wrapper produced by add_model_attr(attr, requires)
raises, without invoking the wrapped function, exactly when the model
already has the attribute, or some required attribute is absent, or a
required attribute's value is outside its allowed set; otherwise it sets
the model's attribute to the wrapped function's name and delegates. -/
theorem add_model_attr_contract {α : Type} (attr funcName : String)
    (requires : List (String × Option (List String))) (func : PyModel → α)
    (model : PyModel) :
    ((∃ e, add_model_attr_wrapper attr funcName requires func model = Except.error e) ↔
      attrFailure attr requires model) ∧
    (¬ attrFailure attr requires model →
      add_model_attr_wrapper attr funcName requires func model =
        Except.ok (func (model.setattr attr funcName))) := by
  cases hga : model.getattr attr with
  | some v =>
    constructor
    · simp only [add_model_attr_wrapper, hga, attrFailure]
      constructor
      · intro _
        exact Or.inl rfl
      · intro _
        exact ⟨_, rfl⟩
    · intro hnf
      exact absurd (Or.inl (by rw [hga]; rfl)) hnf
  | none =>
    cases hcr : checkRequires model funcName requires with
    | error e =>
      have hex : ∃ p ∈ requires, reqFails model p :=
        (checkRequires_error_iff model funcName requires).mp ⟨e, hcr⟩
      constructor
      · simp only [add_model_attr_wrapper, hga, hcr, attrFailure]
        constructor
        · intro _
          exact Or.inr hex
        · intro _
          exact ⟨e, rfl⟩
      · intro hnf
        exact absurd (Or.inr hex) hnf
    | ok u =>
      have hnex : ¬ ∃ p ∈ requires, reqFails model p := by
        rw [← checkRequires_error_iff model funcName requires]
        rintro ⟨e, he⟩
        rw [hcr] at he
        cases he
      constructor
      · simp only [add_model_attr_wrapper, hga, hcr, attrFailure]
        constructor
        · rintro ⟨e, he⟩
          cases he
        · rintro (hs | hex)
          · simp at hs
          · exact absurd hex hnex
      · intro _
        simp only [add_model_attr_wrapper, hga, hcr]

theorem add_model_attr_contract_witness :
    add_model_attr_wrapper "_power_balance" "f_balance" [("_model", some ["tight"])]
      (fun m => m) ⟨[("_model", "tight")]⟩ =
      Except.ok (PyModel.setattr ⟨[("_model", "tight")]⟩ "_power_balance" "f_balance") :=
  (add_model_attr_contract "_power_balance" "f_balance" [("_model", some ["tight"])]
    (fun m => m) ⟨[("_model", "tight")]⟩).2 (by
      rintro (hs | ⟨p, hp, hf⟩)
      · simp [PyModel.getattr, assocFind] at hs
      · rcases List.mem_cons.mp hp with rfl | hp
        · rcases hf with hf | ⟨allowed, v', hall, hga', hout⟩
          · simp [PyModel.getattr, assocFind] at hf
          · cases hall
            simp [PyModel.getattr, assocFind] at hga'
            subst hga'
            simp at hout
        · cases hp)

/-! ## C3: sparsification of stored sensitivity entries -/

theorem sparseRow_ne_zero (names : List String) (row : Nat → ℚ) :
    ∀ kv ∈ sparseRow names row, kv.2 ≠ 0 := by
  intro kv hkv
  simp only [sparseRow, List.mem_map, List.mem_filter] at hkv
  obtain ⟨i, ⟨_, hne⟩, rfl⟩ := hkv
  simpa using hne

theorem denseRow_mem (names : List String) (row : Nat → ℚ) (i : Nat)
    (hi : i < names.length) : (names.getD i "", row i) ∈ denseRow names row := by
  simp only [denseRow, List.mem_map]
  exact ⟨i, List.mem_range.mpr hi, rfl⟩

/-- C3 counterexample: on a one-branch, one-bus snapshot whose PTDF and LDF
matrices are identically zero, `create_dicts_of_ptdf_losses` stores the
zero-valued entries in the branch's `ptdf_r` and `ldf` mappings instead of
omitting them. -/
theorem create_dicts_zero_entry_stored :
    ∃ bs, ("b1", bs) ∈ (create_dicts_of_ptdf_losses ["b1"] ["u1"]
        (fun _ _ => 0) (fun _ _ => 0) (fun _ => 0)
        (fun _ _ => 0) (fun _ _ => 0) (fun _ _ => 0) (fun _ _ => 0)).1 ∧
      ("u1", (0 : ℚ)) ∈ bs.ptdf_r ∧ ("u1", (0 : ℚ)) ∈ bs.ldf := by
  refine ⟨⟨[("u1", 0)], [("u1", 0)], 0⟩, ?_, ?_, ?_⟩ <;>
    simp [create_dicts_of_ptdf_losses, denseRow, sparseRow, List.range_succ]

/-- C3 amended: only the phi-from/phi-to/phi-loss-from/phi-loss-to entries
whose value is exactly zero are omitted from the stored mappings; the PTDF
and LDF rows are stored densely, every bus entry present including
zero-valued ones. This holds for both `create_dicts_of_ptdf_losses` and
`create_dicts_of_ptdf`. -/
theorem sensitivity_sparsification (branch_names bus_names : List String)
    (ptdfM ldfM : Nat → Nat → ℚ) (ldfC : Nat → ℚ)
    (phiFrom phiTo phiLossFrom phiLossTo : Nat → Nat → ℚ) :
    (∀ p ∈ (create_dicts_of_ptdf_losses branch_names bus_names ptdfM ldfM ldfC
        phiFrom phiTo phiLossFrom phiLossTo).2,
      (∀ kv ∈ p.2.phi_from, kv.2 ≠ 0) ∧ (∀ kv ∈ p.2.phi_to, kv.2 ≠ 0) ∧
      (∀ kv ∈ p.2.phi_loss_from, kv.2 ≠ 0) ∧ (∀ kv ∈ p.2.phi_loss_to, kv.2 ≠ 0)) ∧
    (∀ j, j < branch_names.length →
      ∃ bs, (branch_names.getD j "", bs) ∈ (create_dicts_of_ptdf_losses branch_names
          bus_names ptdfM ldfM ldfC phiFrom phiTo phiLossFrom phiLossTo).1 ∧
        ∀ i, i < bus_names.length →
          (bus_names.getD i "", ptdfM j i) ∈ bs.ptdf_r ∧
          (bus_names.getD i "", ldfM j i) ∈ bs.ldf) ∧
    (∀ p ∈ (create_dicts_of_ptdf branch_names bus_names ptdfM phiFrom phiTo).2,
      (∀ kv ∈ p.2.phi_from, kv.2 ≠ 0) ∧ (∀ kv ∈ p.2.phi_to, kv.2 ≠ 0)) ∧
    (∀ j, j < branch_names.length →
      ∃ bs, (branch_names.getD j "", bs) ∈ (create_dicts_of_ptdf branch_names
          bus_names ptdfM phiFrom phiTo).1 ∧
        ∀ i, i < bus_names.length → (bus_names.getD i "", ptdfM j i) ∈ bs.ptdf) := by
  refine ⟨?_, ?_, ?_, ?_⟩
  · intro p hp
    simp only [create_dicts_of_ptdf_losses, List.mem_map] at hp
    obtain ⟨j, _, rfl⟩ := hp
    exact ⟨sparseRow_ne_zero _ _, sparseRow_ne_zero _ _,
      sparseRow_ne_zero _ _, sparseRow_ne_zero _ _⟩
  · intro j hj
    refine ⟨{ ptdf_r := denseRow bus_names (fun i => ptdfM j i)
            , ldf := denseRow bus_names (fun i => ldfM j i)
            , ldf_c := ldfC j }, ?_, ?_⟩
    · simp only [create_dicts_of_ptdf_losses, List.mem_map]
      exact ⟨j, List.mem_range.mpr hj, rfl⟩
    · intro i hi
      exact ⟨denseRow_mem _ _ _ hi, denseRow_mem _ _ _ hi⟩
  · intro p hp
    simp only [create_dicts_of_ptdf, List.mem_map] at hp
    obtain ⟨j, _, rfl⟩ := hp
    exact ⟨sparseRow_ne_zero _ _, sparseRow_ne_zero _ _⟩
  · intro j hj
    refine ⟨{ ptdf := denseRow bus_names (fun i => ptdfM j i) }, ?_, ?_⟩
    · simp only [create_dicts_of_ptdf, List.mem_map]
      exact ⟨j, List.mem_range.mpr hj, rfl⟩
    · intro i hi
      exact denseRow_mem _ _ _ hi

theorem sensitivity_sparsification_witness :
    ∃ bs, ("b1", bs) ∈ (create_dicts_of_ptdf_losses ["b1"] ["u1"]
        (fun _ _ => 1) (fun _ _ => 1) (fun _ => 1)
        (fun _ _ => 1) (fun _ _ => 1) (fun _ _ => 1) (fun _ _ => 1)).1 ∧
      ∀ i, i < (["u1"] : List String).length →
        ((["u1"] : List String).getD i "", (1 : ℚ)) ∈ bs.ptdf_r ∧
        ((["u1"] : List String).getD i "", (1 : ℚ)) ∈ bs.ldf :=
  (sensitivity_sparsification ["b1"] ["u1"]
    (fun _ _ => 1) (fun _ _ => 1) (fun _ => 1)
    (fun _ _ => 1) (fun _ _ => 1) (fun _ _ => 1) (fun _ _ => 1)).2.1 0 (by decide)

/-! ## C2: termination-status validation in _solve_model -/

/-- C2 counterexample: `minStepLength` is outside the claim's accepted set
yet `_solve_model` does not raise on it; and on a genuinely rejected status
(`infeasible`) the raised failure is the `AttributeError` for the misspelled
`terminataion_condition` attribute, not an exception carrying the reported
status string. -/
theorem solve_model_status_counterexample :
    TermCond.minStepLength ∉ claimedAcceptedConditions ∧
    (solve_model (SolverArg.str "cbc") TermCond.minStepLength).2 =
      Except.ok TermCond.minStepLength ∧
    (solve_model (SolverArg.str "cbc") TermCond.infeasible).2 =
      Except.error (PyError.attributeError "terminataion_condition") := by
  refine ⟨by decide, rfl, rfl⟩

/-- C2 amended: with a string solver argument, `_solve_model` raises exactly
when the reported termination condition is outside the code's
`safe_termination_conditions` list (which also contains `minFunctionValue`
and `minStepLength`); because of the misspelled attribute in the message
construction, the raised failure is an `AttributeError` that does not carry
the reported status; accepted statuses never raise. -/
theorem solve_model_status_contract (s : String) (tc : TermCond) :
    ((∃ e, (solve_model (SolverArg.str s) tc).2 = Except.error e) ↔
      tc ∉ safe_termination_conditions) ∧
    (tc ∉ safe_termination_conditions →
      (solve_model (SolverArg.str s) tc).2 =
        Except.error (PyError.attributeError "terminataion_condition")) ∧
    (tc ∈ safe_termination_conditions →
      (solve_model (SolverArg.str s) tc).2 = Except.ok tc) := by
  by_cases h : tc ∈ safe_termination_conditions
  · refine ⟨?_, fun hn => absurd h hn, fun _ => ?_⟩
    · simp [solve_model, resultsSolverAttr, Bind.bind, Except.bind, pure, Except.pure, h]
    · simp [solve_model, resultsSolverAttr, Bind.bind, Except.bind, pure, Except.pure, h]
  · refine ⟨?_, fun _ => ?_, fun hm => absurd hm h⟩
    · simp [solve_model, resultsSolverAttr, Bind.bind, Except.bind, pure, Except.pure, h]
    · simp [solve_model, resultsSolverAttr, Bind.bind, Except.bind, pure, Except.pure, h]

theorem solve_model_status_contract_witness :
    (solve_model (SolverArg.str "gurobi") TermCond.infeasible).2 =
      Except.error (PyError.attributeError "terminataion_condition") :=
  (solve_model_status_contract "gurobi" TermCond.infeasible).2.1 (by decide)

/-! ## C8: non-string solver arguments always raise NameError -/

/-- C8: for any non-string solver argument, even a valid instantiated pyomo
solver object, `_solve_model` raises before any solve is attempted (the
event trace is empty), because the `elif` type check dereferences the name
`pyomo`, which is never bound in the module. -/
theorem solve_model_nonstring_raises (o : OptSolver) (tc : TermCond) :
    solve_model (SolverArg.obj o) tc = ([], Except.error (PyError.nameError "pyomo")) :=
  rfl

/-! ## Lemmas about the result-extraction step -/

theorem dictGetNum_of_find_none (d : PyDict) (k : String)
    (h : assocFind d k = none) : dictGetNum d k = none := by
  simp [dictGetNum, h]

theorem dictGetNum_assocPop_ne (d : PyDict) (k k' : String) (h : k ≠ k') :
    dictGetNum (assocPop d k) k' = dictGetNum d k' := by
  simp [dictGetNum, assocFind_assocPop_ne _ _ _ h]

theorem lmpStep_eq_some (v : SolvedVals) (b : String) (bd : PyDict)
    (kp : String × PyDict) (bd'' : PyDict) (h : lmpStep v b bd kp = some bd'') :
    ∃ x y, bd'' = dictSetNum (dictSetNum bd "lmp" x) "lmp" y := by
  simp only [lmpStep, Option.bind_eq_bind, Option.bind_eq_some] at h
  obtain ⟨pt, _, cur, _, ld, _, cur', _, heq⟩ := h
  cases heq
  exact ⟨_, _, rfl⟩

theorem saveBus_btheta_eq (branches : List (String × PyDict)) (v : SolvedVals)
    (b : String) (bd : PyDict) :
    saveBus ModelGen.btheta branches v (b, bd) =
      some (b, dictSetNum (dictSetNum (assocPop (dictSetNum bd "pl" (v.pl b)) "qlmp")
        "lmp" (v.dualBalanceBus b)) "va" (v.va b)) := rfl

theorem saveBus_other_eq (branches : List (String × PyDict)) (v : SolvedVals)
    (b : String) (bd : PyDict) :
    saveBus ModelGen.otherGen branches v (b, bd) =
      some (b, assocPop (dictSetNum bd "pl" (v.pl b)) "qlmp") := rfl

theorem saveBus_ptdf_eq (branches : List (String × PyDict)) (v : SolvedVals)
    (b : String) (bd : PyDict) :
    saveBus ModelGen.ptdf branches v (b, bd) =
      (foldOption (lmpStep v b)
        (dictSetNum (assocPop (dictSetNum bd "pl" (v.pl b)) "qlmp") "lmp" v.dualBalanceSys)
        branches).bind (fun bd' => some (b, bd')) := rfl

theorem saveResults_eq_some (md : ModelData) (v : SolvedVals) (gen : ModelGen)
    (md' : ModelData) (h : saveResults md v gen = some md') :
    md'.system = assocSet md.system "total_cost" v.obj ∧
    md'.gens = md.gens.map (fun gp => (gp.1, dictSetNum gp.2 "pg" (v.pg gp.1))) ∧
    mapOption (saveBus gen md.branches v) md.buses = some md'.buses ∧
    md'.branches = md.branches.map (fun kp => (kp.1, dictSetNum kp.2 "pf" (v.pf kp.1))) := by
  cases hmo : mapOption (saveBus gen md.branches v) md.buses with
  | none =>
    rw [saveResults] at h
    simp only [hmo, Option.bind_eq_bind, Option.none_bind] at h
    cases h
  | some bs =>
    rw [saveResults] at h
    simp only [hmo, Option.bind_eq_bind, Option.some_bind, Option.pure_def,
      Option.some.injEq] at h
    subst h
    exact ⟨rfl, rfl, rfl, rfl⟩

theorem foldOption_lmpStep_value (v : SolvedVals) (b : String) (pt ld : String → ℚ) :
    ∀ branches : List (String × PyDict),
      (∀ kp ∈ branches,
        (dictGetMap kp.2 "ptdf_r").bind (fun m => assocFind m b) = some (pt kp.1)) →
      (∀ kp ∈ branches,
        (dictGetMap kp.2 "ldf").bind (fun m => assocFind m b) = some (ld kp.1)) →
      ∀ (bd : PyDict) (a : ℚ), dictGetNum bd "lmp" = some a →
      ∃ bd', foldOption (lmpStep v b) bd branches = some bd' ∧
        dictGetNum bd' "lmp" = some (a + (branches.map (fun kp =>
          pt kp.1 * v.dualPfBranch kp.1 + ld kp.1 * v.dualPflBranch kp.1)).sum) := by
  intro branches
  induction branches with
  | nil =>
    intro _ _ bd a hbd
    exact ⟨bd, rfl, by simpa using hbd⟩
  | cons kp rest ih =>
    intro hpt hld bd a hbd
    have hpt0 := hpt kp (List.mem_cons_self _ _)
    have hld0 := hld kp (List.mem_cons_self _ _)
    have hstep : lmpStep v b bd kp =
        some (dictSetNum (dictSetNum bd "lmp" (a + pt kp.1 * v.dualPfBranch kp.1)) "lmp"
          ((a + pt kp.1 * v.dualPfBranch kp.1) + ld kp.1 * v.dualPflBranch kp.1)) := by
      simp only [lmpStep, hpt0, hld0, hbd, dictGetNum_dictSetNum_self,
        Option.bind_eq_bind, Option.some_bind, Option.pure_def]
    obtain ⟨bd', hfold, hval⟩ :=
      ih (fun q hq => hpt q (List.mem_cons_of_mem _ hq))
        (fun q hq => hld q (List.mem_cons_of_mem _ hq))
        (dictSetNum (dictSetNum bd "lmp" (a + pt kp.1 * v.dualPfBranch kp.1)) "lmp"
          ((a + pt kp.1 * v.dualPfBranch kp.1) + ld kp.1 * v.dualPflBranch kp.1))
        ((a + pt kp.1 * v.dualPfBranch kp.1) + ld kp.1 * v.dualPflBranch kp.1)
        (dictGetNum_dictSetNum_self _ _ _)
    refine ⟨bd', ?_, ?_⟩
    · simp only [foldOption, hstep, Option.bind_eq_bind, Option.some_bind]
      exact hfold
    · rw [hval]
      congr 1
      simp only [List.map_cons, List.sum_cons]
      ring

/-! ## C1: PTDF marginal-price reconstruction -/

/-- C1: in a PTDF-based solve, the extracted `lmp` of every bus equals the
system-wide balance dual plus, summed over every branch, that branch's PTDF
entry at the bus times the flow-equality dual plus that branch's LDF entry
at the bus times the loss-equality dual. `pt` and `ld` are the stored
`ptdf_r`/`ldf` row entries at bus `b` (the hypotheses say the lookups
succeed, as they do for rows attached by `create_dicts_of_ptdf_losses`). -/
theorem ptdf_lmp_extraction (md : ModelData) (v : SolvedVals) (b : String) (bd : PyDict)
    (pt ld : String → ℚ)
    (hpt : ∀ kp ∈ md.branches,
      (dictGetMap kp.2 "ptdf_r").bind (fun m => assocFind m b) = some (pt kp.1))
    (hld : ∀ kp ∈ md.branches,
      (dictGetMap kp.2 "ldf").bind (fun m => assocFind m b) = some (ld kp.1))
    (hmem : (b, bd) ∈ md.buses)
    (md' : ModelData) (hsave : saveResults md v ModelGen.ptdf = some md') :
    ∃ bd', (b, bd') ∈ md'.buses ∧
      dictGetNum bd' "lmp" = some (v.dualBalanceSys + (md.branches.map (fun kp =>
        pt kp.1 * v.dualPfBranch kp.1 + ld kp.1 * v.dualPflBranch kp.1)).sum) := by
  obtain ⟨-, -, hmo, -⟩ := saveResults_eq_some md v ModelGen.ptdf md' hsave
  obtain ⟨y, hy, hymem⟩ := mapOption_mem _ _ _ hmo (b, bd) hmem
  rw [saveBus_ptdf_eq] at hy
  obtain ⟨bd', hfold, hval⟩ :=
    foldOption_lmpStep_value v b pt ld md.branches hpt hld
      (dictSetNum (assocPop (dictSetNum bd "pl" (v.pl b)) "qlmp") "lmp" v.dualBalanceSys)
      v.dualBalanceSys (dictGetNum_dictSetNum_self _ _ _)
  rw [hfold] at hy
  simp only [Option.some_bind, Option.some.injEq] at hy
  subst hy
  exact ⟨bd', hymem, hval⟩

theorem ptdf_lmp_extraction_witness :
    ∃ md', saveResults mdPtdfW vW ModelGen.ptdf = some md' ∧
      ∃ bd', ("u1", bd') ∈ md'.buses ∧
        dictGetNum bd' "lmp" = some (vW.dualBalanceSys + (mdPtdfW.branches.map (fun kp =>
          (3 : ℚ) * vW.dualPfBranch kp.1 + (2 : ℚ) * vW.dualPflBranch kp.1)).sum) := by
  obtain ⟨md', hmd'⟩ : ∃ md', saveResults mdPtdfW vW ModelGen.ptdf = some md' := ⟨_, rfl⟩
  exact ⟨md', hmd', ptdf_lmp_extraction mdPtdfW vW "u1" [] (fun _ => 3) (fun _ => 2)
    (by decide) (by decide) (by decide) md' hmd'⟩

/-! ## C9: stale qlmp entries are removed on every solve -/

/-- C9: after a successful `solve_dcopf_losses` result extraction with any
model generator, no bus dictionary of the returned snapshot has a `qlmp`
entry (the bus loop pops it unconditionally). The hypothesis says each input
bus dictionary has no duplicate keys, as Python dictionaries guarantee. -/
theorem qlmp_removed (md : ModelData) (v : SolvedVals) (gen : ModelGen)
    (hnd : ∀ bp ∈ md.buses, ((bp.2.map Prod.fst).Nodup))
    (md' : ModelData) (hsave : saveResults md v gen = some md') :
    ∀ bp ∈ md'.buses, dictGetNum bp.2 "qlmp" = none := by
  obtain ⟨-, -, hmo, -⟩ := saveResults_eq_some md v gen md' hsave
  intro bp hbp
  obtain ⟨x, hx, hfx⟩ := mapOption_mem_rev _ _ _ hmo bp hbp
  obtain ⟨b, bd⟩ := x
  have hnd' : (((dictSetNum bd "pl" (v.pl b)).map Prod.fst).Nodup) :=
    keys_nodup_assocSet _ _ _ (hnd (b, bd) hx)
  have hqnone : assocFind (assocPop (dictSetNum bd "pl" (v.pl b)) "qlmp") "qlmp" = none :=
    assocFind_assocPop_self _ _ hnd'
  cases gen with
  | btheta =>
    rw [saveBus_btheta_eq] at hfx
    injection hfx with hfx
    subst hfx
    show dictGetNum _ "qlmp" = none
    rw [dictGetNum_dictSetNum_ne _ _ _ _ (by decide),
      dictGetNum_dictSetNum_ne _ _ _ _ (by decide)]
    exact dictGetNum_of_find_none _ _ hqnone
  | otherGen =>
    rw [saveBus_other_eq] at hfx
    injection hfx with hfx
    subst hfx
    exact dictGetNum_of_find_none _ _ hqnone
  | ptdf =>
    rw [saveBus_ptdf_eq] at hfx
    cases hfold : foldOption (lmpStep v b)
        (dictSetNum (assocPop (dictSetNum bd "pl" (v.pl b)) "qlmp") "lmp" v.dualBalanceSys)
        md.branches with
    | none =>
      rw [hfold] at hfx
      cases hfx
    | some bdf =>
      rw [hfold] at hfx
      simp only [Option.some_bind, Option.some.injEq] at hfx
      subst hfx
      have hstart : assocFind (dictSetNum (assocPop (dictSetNum bd "pl" (v.pl b)) "qlmp")
          "lmp" v.dualBalanceSys) "qlmp" = none := by
        rw [dictSetNum, assocFind_assocSet_ne _ _ _ _ (by decide)]
        exact hqnone
      have hq : assocFind bdf "qlmp" = none := by
        refine foldOption_invariant (fun d => assocFind d "qlmp" = none)
          (lmpStep v b) md.branches _ hstart ?_ bdf hfold
        intro b' c _ hP b'' hstep
        obtain ⟨x, y, rfl⟩ := lmpStep_eq_some v b b' c b'' hstep
        rw [dictSetNum, dictSetNum, assocFind_assocSet_ne _ _ _ _ (by decide),
          assocFind_assocSet_ne _ _ _ _ (by decide)]
        exact hP
      exact dictGetNum_of_find_none _ _ hq

theorem qlmp_removed_witness :
    ∃ md', saveResults mdQlmpW vW ModelGen.btheta = some md' ∧
      ∀ bp ∈ md'.buses, dictGetNum bp.2 "qlmp" = none := by
  obtain ⟨md', hmd'⟩ : ∃ md', saveResults mdQlmpW vW ModelGen.btheta = some md' := ⟨_, rfl⟩
  exact ⟨md', hmd', qlmp_removed mdQlmpW vW ModelGen.btheta (by decide) md' hmd'⟩

/-! ## C5: result fields written back by a successful solve -/

/-- C5 counterexample: `solve_dcopf_losses` never writes a per-branch loss
result field; on a snapshot whose branch has no result fields, the returned
snapshot's branch dictionary has a `pf` entry but still no `pfl` entry. -/
theorem branch_loss_not_written :
    ∃ md', saveResults mdNoPflW vW ModelGen.btheta = some md' ∧
      ∃ kd', ("k1", kd') ∈ md'.branches ∧
        dictGetNum kd' "pf" = some 5 ∧ dictGetNum kd' "pfl" = none := by
  refine ⟨_, rfl, [("pf", DVal.num 5)], ?_, ?_, ?_⟩ <;> decide

/-- C5 amended: after every successful extraction with the angle-based or
PTDF generator, the returned snapshot carries the total objective cost,
per-generator dispatch, per-bus load and a marginal price (plus the bus
angle and the per-bus balance dual as price for the angle-based model), and
the per-branch flow — but the per-branch loss field is never written: each
branch's `pfl` entry is exactly what it was in the input snapshot. -/
theorem solved_result_fields (md : ModelData) (v : SolvedVals) (gen : ModelGen)
    (hgen : gen = ModelGen.btheta ∨ gen = ModelGen.ptdf)
    (md' : ModelData) (hsave : saveResults md v gen = some md') :
    assocFind md'.system "total_cost" = some v.obj ∧
    (∀ gp ∈ md.gens, ∃ gd', (gp.1, gd') ∈ md'.gens ∧
      dictGetNum gd' "pg" = some (v.pg gp.1)) ∧
    (∀ bp ∈ md.buses, ∃ bd', (bp.1, bd') ∈ md'.buses ∧
      dictGetNum bd' "pl" = some (v.pl bp.1) ∧
      (dictGetNum bd' "lmp").isSome = true ∧
      (gen = ModelGen.btheta →
        dictGetNum bd' "lmp" = some (v.dualBalanceBus bp.1) ∧
        dictGetNum bd' "va" = some (v.va bp.1))) ∧
    (∀ kp ∈ md.branches, ∃ kd', (kp.1, kd') ∈ md'.branches ∧
      dictGetNum kd' "pf" = some (v.pf kp.1) ∧
      dictGetNum kd' "pfl" = dictGetNum kp.2 "pfl") := by
  obtain ⟨hsys, hgens, hmo, hbr⟩ := saveResults_eq_some md v gen md' hsave
  refine ⟨?_, ?_, ?_, ?_⟩
  · rw [hsys]
    exact assocFind_assocSet_self _ _ _
  · intro gp hgp
    refine ⟨dictSetNum gp.2 "pg" (v.pg gp.1), ?_, dictGetNum_dictSetNum_self _ _ _⟩
    rw [hgens]
    exact List.mem_map_of_mem _ hgp
  · intro bp hbp
    obtain ⟨y, hy, hymem⟩ := mapOption_mem _ _ _ hmo bp hbp
    obtain ⟨b, bd⟩ := bp
    have hpl0 : dictGetNum (assocPop (dictSetNum bd "pl" (v.pl b)) "qlmp") "pl" =
        some (v.pl b) := by
      rw [dictGetNum_assocPop_ne _ _ _ (by decide)]
      exact dictGetNum_dictSetNum_self _ _ _
    rcases hgen with hg | hg <;> subst hg
    · rw [saveBus_btheta_eq] at hy
      injection hy with hy
      subst hy
      refine ⟨_, hymem, ?_, ?_, fun _ => ⟨?_, ?_⟩⟩
      · rw [dictGetNum_dictSetNum_ne _ _ _ _ (by decide),
          dictGetNum_dictSetNum_ne _ _ _ _ (by decide)]
        exact hpl0
      · rw [dictGetNum_dictSetNum_ne _ _ _ _ (by decide),
          dictGetNum_dictSetNum_self]
        rfl
      · rw [dictGetNum_dictSetNum_ne _ _ _ _ (by decide),
          dictGetNum_dictSetNum_self]
      · rw [dictGetNum_dictSetNum_self]
    · rw [saveBus_ptdf_eq] at hy
      cases hfold : foldOption (lmpStep v b)
          (dictSetNum (assocPop (dictSetNum bd "pl" (v.pl b)) "qlmp") "lmp" v.dualBalanceSys)
          md.branches with
      | none =>
        rw [hfold] at hy
        cases hy
      | some bdf =>
        rw [hfold] at hy
        simp only [Option.some_bind, Option.some.injEq] at hy
        subst hy
        have hstart : dictGetNum (dictSetNum (assocPop (dictSetNum bd "pl" (v.pl b)) "qlmp")
            "lmp" v.dualBalanceSys) "pl" = some (v.pl b) ∧
            (dictGetNum (dictSetNum (assocPop (dictSetNum bd "pl" (v.pl b)) "qlmp")
              "lmp" v.dualBalanceSys) "lmp").isSome = true := by
          constructor
          · rw [dictGetNum_dictSetNum_ne _ _ _ _ (by decide)]
            exact hpl0
          · rw [dictGetNum_dictSetNum_self]
            rfl
        have hinv : dictGetNum bdf "pl" = some (v.pl b) ∧
            (dictGetNum bdf "lmp").isSome = true := by
          refine foldOption_invariant
            (fun d => dictGetNum d "pl" = some (v.pl b) ∧ (dictGetNum d "lmp").isSome = true)
            (lmpStep v b) md.branches _ hstart ?_ bdf hfold
          intro b' c _ hP b'' hstep
          obtain ⟨x, y, rfl⟩ := lmpStep_eq_some v b b' c b'' hstep
          constructor
          · rw [dictGetNum_dictSetNum_ne _ _ _ _ (by decide),
              dictGetNum_dictSetNum_ne _ _ _ _ (by decide)]
            exact hP.1
          · rw [dictGetNum_dictSetNum_self]
            rfl
        exact ⟨bdf, hymem, hinv.1, hinv.2, fun hcontra => by cases hcontra⟩
  · intro kp hkp
    refine ⟨dictSetNum kp.2 "pf" (v.pf kp.1), ?_,
      dictGetNum_dictSetNum_self _ _ _,
      dictGetNum_dictSetNum_ne _ _ _ _ (by decide)⟩
    rw [hbr]
    exact List.mem_map_of_mem _ hkp

theorem solved_result_fields_witness :
    ∃ md', saveResults mdFieldsW vW ModelGen.btheta = some md' ∧
      (assocFind md'.system "total_cost" = some vW.obj ∧
      (∀ gp ∈ mdFieldsW.gens, ∃ gd', (gp.1, gd') ∈ md'.gens ∧
        dictGetNum gd' "pg" = some (vW.pg gp.1)) ∧
      (∀ bp ∈ mdFieldsW.buses, ∃ bd', (bp.1, bd') ∈ md'.buses ∧
        dictGetNum bd' "pl" = some (vW.pl bp.1) ∧
        (dictGetNum bd' "lmp").isSome = true ∧
        (ModelGen.btheta = ModelGen.btheta →
          dictGetNum bd' "lmp" = some (vW.dualBalanceBus bp.1) ∧
          dictGetNum bd' "va" = some (vW.va bp.1))) ∧
      (∀ kp ∈ mdFieldsW.branches, ∃ kd', (kp.1, kd') ∈ md'.branches ∧
        dictGetNum kd' "pf" = some (vW.pf kp.1) ∧
        dictGetNum kd' "pfl" = dictGetNum kp.2 "pfl")) := by
  obtain ⟨md', hmd'⟩ : ∃ md', saveResults mdFieldsW vW ModelGen.btheta = some md' := ⟨_, rfl⟩
  exact ⟨md', hmd', solved_result_fields mdFieldsW vW ModelGen.btheta (Or.inl rfl) md' hmd'⟩

/-! ## C6: voltage-angle bounds and reference-bus fixing -/

theorem assocFind_const_map {α β : Type} (l : List (String × α)) (c : β) (b : String)
    (hb : b ∈ l.map Prod.fst) :
    assocFind (l.map (fun kv => (kv.1, c))) b = some c := by
  induction l with
  | nil => cases hb
  | cons p rest ih =>
    by_cases hp : p.1 = b
    · simp [assocFind, hp]
    · simp only [List.map_cons, List.mem_cons] at hb
      rcases hb with hb | hb
      · exact absurd hb.symm hp
      · simp [assocFind, hp, ih hb]

theorem radians_180_eq_pi : radians Real.pi 180 = Real.pi := by
  unfold radians
  rw [div_eq_iff (by norm_num : (180 : ℝ) ≠ 0)]
  push_cast
  ring

/-- C6 counterexample: with the configured reference-bus angle 180 (the data
is in degrees), the angle-based builder fixes the reference bus's angle
variable to `radians(180) = π`, which differs from the configured constant
180; so the variable is not fixed to the constant itself. -/
theorem ref_bus_fix_counterexample :
    assocFind (btheta_va_declaration Real.pi ["u1"] [("u1", 0)] "u1" 180).vaFixed "u1" =
      some Real.pi ∧ Real.pi ≠ (180 : ℝ) := by
  constructor
  · show assocFind [("u1", radians Real.pi 180)] "u1" = some (Real.pi)
    rw [radians_180_eq_pi]
    simp [assocFind]
  · intro hpi
    have h1 := Real.pi_lt_d2
    rw [hpi] at h1
    norm_num at h1

/-- C6 amended: in the angle-based builder, every bus carrying a `va`
attribute has its voltage-angle variable bounded to `[-π, π]`, and the
reference bus's angle variable is fixed to the degree-to-radian conversion
`radians(ref_angle)` of the configured reference-bus-angle constant. -/
theorem btheta_va_bounds_and_ref_fix (bus_names : List String)
    (bus_va : List (String × ℚ)) (ref_bus : String) (ref_angle : ℚ)
    (b : String) (hb : b ∈ bus_va.map Prod.fst) :
    (btheta_va_declaration Real.pi bus_names bus_va ref_bus ref_angle).va.bounds b =
      some (-Real.pi, Real.pi) ∧
    assocFind (btheta_va_declaration Real.pi bus_names bus_va ref_bus ref_angle).vaFixed
      ref_bus = some (radians Real.pi ref_angle) := by
  constructor
  · show assocFind (bus_va.map (fun kv => (kv.1, (-Real.pi, Real.pi)))) b =
      some (-Real.pi, Real.pi)
    exact assocFind_const_map bus_va _ b hb
  · show assocFind [(ref_bus, radians Real.pi ref_angle)] ref_bus = _
    simp [assocFind]

theorem btheta_va_bounds_and_ref_fix_witness :
    (btheta_va_declaration Real.pi ["u1"] [("u1", 0)] "u1" 0).va.bounds "u1" =
      some (-Real.pi, Real.pi) ∧
    assocFind (btheta_va_declaration Real.pi ["u1"] [("u1", 0)] "u1" 0).vaFixed "u1" =
      some (radians Real.pi 0) :=
  btheta_va_bounds_and_ref_fix ["u1"] [("u1", 0)] "u1" 0 "u1" (by decide)

/-! ## C4: builders mutate only the clone -/

theorem set_append_length {α : Type} (l : List α) (a b : α) :
    (l ++ [a]).set l.length b = l ++ [b] := by
  induction l with
  | nil => rfl
  | cons x xs ih =>
    simp only [List.cons_append, List.length_cons, List.set_cons_succ, ih]

/-- C4: in the heap model of the two builders — with the out-of-src
`clone_in_service`, `scale_ModelData_to_pu`, `create_dicts_of_ptdf_losses`
and the pure model formulation taken as arbitrary value-level functions —
every pre-existing object, in particular the caller's snapshot at `mdRef`,
is left unchanged; the returned reference is freshly allocated (distinct
from the caller's) and holds the scaled (and, for the PTDF builder,
sensitivity-enriched) clone, which is what is returned with the model. -/
theorem builders_frame {α β : Type} (clone scale attach : α → α) (formulate : α → β)
    (h : Heap α) (mdRef : Nat) (href : mdRef < h.cells.length) :
    ∃ md0, h.read mdRef = some md0 ∧
    (∃ h' m, create_btheta_losses_dcopf_model_frame clone scale formulate h mdRef =
        some (h', m, h.cells.length) ∧
      (∀ i, i < h.cells.length → h'.read i = h.read i) ∧
      h.cells.length ≠ mdRef ∧
      h'.read h.cells.length = some (scale (clone md0))) ∧
    (∃ h' m, create_ptdf_losses_dcopf_model_frame clone scale attach formulate h mdRef =
        some (h', m, h.cells.length) ∧
      (∀ i, i < h.cells.length → h'.read i = h.read i) ∧
      h.cells.length ≠ mdRef ∧
      h'.read h.cells.length = some (attach (scale (clone md0)))) := by
  have hget : h.cells[mdRef]? = some (h.cells.get ⟨mdRef, href⟩) := by
    rw [List.getElem?_eq_getElem href]
    rfl
  have hmd0 : h.read mdRef = some (h.cells.get ⟨mdRef, href⟩) := by
    unfold Heap.read
    rw [List.get?_eq_getElem?, hget]
  refine ⟨h.cells.get ⟨mdRef, href⟩, hmd0, ?_, ?_⟩
  · refine ⟨⟨h.cells ++ [scale (clone (h.cells.get ⟨mdRef, href⟩))]⟩,
      formulate (scale (clone (h.cells.get ⟨mdRef, href⟩))), ?_, ?_, ne_of_gt href, ?_⟩
    · simp only [create_btheta_losses_dcopf_model_frame, Heap.alloc, Heap.read,
        Heap.write, set_append_length, List.get?_eq_getElem?,
        List.getElem?_concat_length, Option.some_bind, Option.bind_eq_bind,
        Option.pure_def, hget]
    · intro i hi
      simp [Heap.read, List.getElem?_append_left hi]
    · simp [Heap.read, List.getElem?_concat_length]
  · refine ⟨⟨h.cells ++ [attach (scale (clone (h.cells.get ⟨mdRef, href⟩)))]⟩,
      formulate (attach (scale (clone (h.cells.get ⟨mdRef, href⟩)))), ?_, ?_,
      ne_of_gt href, ?_⟩
    · simp only [create_ptdf_losses_dcopf_model_frame, Heap.alloc, Heap.read,
        Heap.write, set_append_length, List.get?_eq_getElem?,
        List.getElem?_concat_length, Option.some_bind, Option.bind_eq_bind,
        Option.pure_def, hget]
    · intro i hi
      simp [Heap.read, List.getElem?_append_left hi]
    · simp [Heap.read, List.getElem?_concat_length]

theorem builders_frame_witness :
    ∃ md0, (Heap.mk [(5 : ℚ)]).read 0 = some md0 ∧
    (∃ h' m, create_btheta_losses_dcopf_model_frame (fun x => x) (fun x => x + 1)
        (fun x => x) (Heap.mk [(5 : ℚ)]) 0 = some (h', m, 1) ∧
      (∀ i, i < 1 → h'.read i = (Heap.mk [(5 : ℚ)]).read i) ∧
      1 ≠ 0 ∧
      h'.read 1 = some ((fun x => x + 1) ((fun x => x) md0))) ∧
    (∃ h' m, create_ptdf_losses_dcopf_model_frame (fun x => x) (fun x => x + 1)
        (fun x => x * 2) (fun x => x) (Heap.mk [(5 : ℚ)]) 0 = some (h', m, 1) ∧
      (∀ i, i < 1 → h'.read i = (Heap.mk [(5 : ℚ)]).read i) ∧
      1 ≠ 0 ∧
      h'.read 1 = some ((fun x => x * 2) ((fun x => x + 1) ((fun x => x) md0)))) :=
  builders_frame (fun x => x) (fun x => x + 1) (fun x => x * 2) (fun x => x)
    (Heap.mk [(5 : ℚ)]) 0 (by decide)

end Egret
